import Mathlib

/-!
Shallow embedding of `forge_scripts/diagonal-generator.js` from the
lpc-antigravity repository.

A canvas is modelled as a `Buffer`: a width, a height and a pixel map.
Freshly created canvases are fully transparent; `drawImage` of a whole
image at the origin is `drawCopy`.  The canvas 2-D affine transform
`ctx.transform(a, b, c, d, e, f)` maps `x' = a*x + c*y + e`,
`y' = b*x + d*y + f`; with `imageSmoothingEnabled = false` a destination
pixel `(x, y)` is rasterised by mapping its centre `(x + 1/2, y + 1/2)`
back through the inverse transform and sampling the source pixel that
contains the resulting point (floor of each coordinate), transparent when
the point falls outside the source.  Shear amounts are rationals.
-/

structure Pixel where
  r : Nat
  g : Nat
  b : Nat
  a : Nat
deriving DecidableEq, Repr

/-- Fully transparent pixel: the content of a freshly created canvas. -/
def transparent : Pixel := ⟨0, 0, 0, 0⟩

structure Buffer where
  width : Nat
  height : Nat
  pix : Nat → Nat → Pixel

/-- Model of drawing a whole image at the origin of a fresh canvas of the
same size (`sourceCtx.drawImage(img, 0, 0)`): pixels inside the image are
copied, the rest of the canvas stays transparent. -/
def drawCopy (img : Buffer) : Buffer where
  width := img.width
  height := img.height
  pix := fun x y => if x < img.width ∧ y < img.height then img.pix x y else transparent

/-- Pixel-for-pixel equality of two buffers: same dimensions and the same
pixel at every in-bounds coordinate. -/
def bufEq (u v : Buffer) : Prop :=
  u.width = v.width ∧ u.height = v.height ∧
    ∀ x < u.width, ∀ y < u.height, u.pix x y = v.pix x y

/-- Horizontal mirror image of a buffer (reflection across the vertical
centre line), used to state the mirror-symmetry property. -/
def mirrorBuf (u : Buffer) : Buffer where
  width := u.width
  height := u.height
  pix := fun x y => u.pix (u.width - 1 - x) y

/-- The LPC 4-row sheet check of `generateDiagonal`:
`height % 4 === 0 && height >= 256`. -/
abbrev isLPCFormat (height : Nat) : Prop := height % 4 = 0 ∧ 256 ≤ height

/-- Default shear amount `DIAGONAL_SHEAR_AMOUNT = 0.15`. -/
def DIAGONAL_SHEAR_AMOUNT : ℚ := 15 / 100

/-- Embedding of `extractRow(sourceCanvas, rowIndex)`: a fresh canvas of
size `width × (height / 4)` receiving the sub-rectangle
`[0, rowIndex*rowHeight, width, rowHeight]` of the source via `drawImage`
(source pixels outside the source canvas leave the destination
transparent). -/
def extractRow (sourceCanvas : Buffer) (rowIndex : Nat) : Buffer :=
  let width := sourceCanvas.width
  let height := sourceCanvas.height
  let rowHeight := height / 4
  { width := width
    height := rowHeight
    pix := fun x y =>
      if x < width ∧ y < rowHeight ∧ rowIndex * rowHeight + y < height then
        sourceCanvas.pix x (rowIndex * rowHeight + y)
      else transparent }

/-- Sampling function of the `ne`/`se` branch of `applyShearTransform`:
the code sets `ctx.transform(1, shearAmount, 0, 1, 0, 0)`, i.e.
`x' = x`, `y' = shearAmount*x + y`.  A destination pixel `(x, y)` is
rasterised by mapping its centre back through the inverse transform,
`(x + 1/2, y + 1/2 - shearAmount*(x + 1/2))`, and sampling the source
pixel containing that point (floor), transparent when out of bounds. -/
def shearPixPos (sourceCanvas : Buffer) (shearAmount : ℚ) (x y : Nat) : Pixel :=
  let ys : ℤ := ⌊(y : ℚ) + 1/2 - shearAmount * ((x : ℚ) + 1/2)⌋
  if x < sourceCanvas.width ∧ 0 ≤ ys ∧ ys < (sourceCanvas.height : ℤ) then
    sourceCanvas.pix x ys.toNat
  else transparent

/-- Sampling function of the `nw`/`sw` (and any other direction) branch of
`applyShearTransform`: the code sets
`ctx.transform(1, -shearAmount, 0, 1, offset, 0)` with
`offset = width * shearAmount`, i.e. `x' = x + offset`,
`y' = -shearAmount*x + y`.  A destination pixel centre maps back to
`(x + 1/2 - offset, y + 1/2 + shearAmount*(x + 1/2 - offset))`. -/
def shearPixNeg (sourceCanvas : Buffer) (shearAmount : ℚ) (x y : Nat) : Pixel :=
  let offset : ℚ := (sourceCanvas.width : ℚ) * shearAmount
  let xs : ℤ := ⌊(x : ℚ) + 1/2 - offset⌋
  let ys : ℤ := ⌊(y : ℚ) + 1/2 + shearAmount * ((x : ℚ) + 1/2 - offset)⌋
  if 0 ≤ xs ∧ xs < (sourceCanvas.width : ℤ) ∧ 0 ≤ ys ∧ ys < (sourceCanvas.height : ℤ) then
    sourceCanvas.pix xs.toNat ys.toNat
  else transparent

/-- Embedding of `applyShearTransform(sourceCanvas, direction, shearAmount)`:
an output canvas of the source's dimensions, filled through the canvas
transform set by the code (`shearPixPos` for `ne`/`se`, `shearPixNeg`
with the compensating offset for every other direction token). -/
def applyShearTransform (sourceCanvas : Buffer) (direction : String) (shearAmount : ℚ) : Buffer :=
  if direction = "ne" ∨ direction = "se" then
    ⟨sourceCanvas.width, sourceCanvas.height, shearPixPos sourceCanvas shearAmount⟩
  else
    ⟨sourceCanvas.width, sourceCanvas.height, shearPixNeg sourceCanvas shearAmount⟩

/-- Embedding of `generateDiagonal(sourceImage, direction, shearAmount)`:
copy the source onto a canvas, check the LPC 4-row format, on failure
shear the whole buffer (after a `console.warn`), otherwise extract the
North row (index 2) for `ne`/`nw` and the South row (index 0) for every
other direction token, then shear the extracted row. -/
def generateDiagonal (sourceImage : Buffer) (direction : String) (shearAmount : ℚ) : Buffer :=
  let sourceCanvas := drawCopy sourceImage
  if isLPCFormat sourceImage.height then
    let baseRow :=
      if direction = "ne" ∨ direction = "nw" then extractRow sourceCanvas 2
      else extractRow sourceCanvas 0
    applyShearTransform baseRow direction shearAmount
  else
    applyShearTransform sourceCanvas direction shearAmount

/-- Observable diagnostic of `generateDiagonal`: `console.warn` is called
exactly when the LPC format check fails. -/
abbrev generateDiagonalWarns (sourceImage : Buffer) : Prop :=
  ¬ isLPCFormat sourceImage.height

/-- Return shape of `generateAllDiagonals`: exactly the four keys
`ne`, `nw`, `se`, `sw`. -/
structure Diagonals where
  ne : Buffer
  nw : Buffer
  se : Buffer
  sw : Buffer

/-- Return shape of `generateAll8Directions`: exactly the eight keys
`n`, `e`, `s`, `w`, `ne`, `nw`, `se`, `sw`. -/
structure AllDirections where
  n : Buffer
  e : Buffer
  s : Buffer
  w : Buffer
  ne : Buffer
  nw : Buffer
  se : Buffer
  sw : Buffer

/-- Embedding of `generateAllDiagonals(sourceImage, shearAmount)`. -/
def generateAllDiagonals (sourceImage : Buffer) (shearAmount : ℚ) : Diagonals where
  ne := generateDiagonal sourceImage "ne" shearAmount
  nw := generateDiagonal sourceImage "nw" shearAmount
  se := generateDiagonal sourceImage "se" shearAmount
  sw := generateDiagonal sourceImage "sw" shearAmount

/-- Embedding of `generateAll8Directions(sourceImage, shearAmount)`:
cardinal entries are direct `extractRow` calls on the copied source
canvas (rows 2, 3, 0, 1 for n, e, s, w), diagonal entries are
`generateDiagonal` calls on the original source image. -/
def generateAll8Directions (sourceImage : Buffer) (shearAmount : ℚ) : AllDirections :=
  let sourceCanvas := drawCopy sourceImage
  { n := extractRow sourceCanvas 2
    e := extractRow sourceCanvas 3
    s := extractRow sourceCanvas 0
    w := extractRow sourceCanvas 1
    ne := generateDiagonal sourceImage "ne" shearAmount
    nw := generateDiagonal sourceImage "nw" shearAmount
    se := generateDiagonal sourceImage "se" shearAmount
    sw := generateDiagonal sourceImage "sw" shearAmount }

/-- Error taxonomy named by the specification (`InvalidInput`,
`UnknownDirection`).  The JavaScript source defines and raises neither. -/
inductive DiagError where
  | invalidInput : DiagError
  | unknownDirection : DiagError
deriving DecidableEq

/-- Result of a `generateDiagonal` call seen through an error channel:
the source contains no `throw`, so every call returns a buffer. -/
def generateDiagonalResult (sourceImage : Buffer) (direction : String) (shearAmount : ℚ) :
    Except DiagError Buffer :=
  Except.ok (generateDiagonal sourceImage direction shearAmount)

/-- Opaque red marker pixel used by the concrete test buffers. -/
def pxO : Pixel := ⟨255, 0, 0, 255⟩

/-- Concrete 4×4 buffer with a single opaque pixel at `(3, 0)`. -/
def srcC1 : Buffer := ⟨4, 4, fun x y => if x = 3 ∧ y = 0 then pxO else transparent⟩

/-- Concrete horizontally symmetric 4×4 buffer: opaque pixels at `(1, 1)`
and `(2, 1)`. -/
def srcSym : Buffer := ⟨4, 4, fun x y => if (x = 1 ∨ x = 2) ∧ y = 1 then pxO else transparent⟩

/-- Concrete 4×256 LPC-conforming sheet. -/
def sheet256 : Buffer := ⟨4, 256, fun x y => ⟨x % 256, y % 256, (x + y) % 256, 255⟩⟩

/-- Concrete zero-dimension buffer. -/
def emptyBuf : Buffer := ⟨0, 0, fun _ _ => transparent⟩

/-- Concrete 2×8 sheet whose height is divisible by 4 but below 256. -/
def smallSheet : Buffer := ⟨2, 8, fun x y => ⟨x, y, 0, 255⟩⟩

/-- Concrete 3×5 buffer whose height is not divisible by 4. -/
def oddSheet : Buffer := ⟨3, 5, fun x y => ⟨x, y, 1, 255⟩⟩

-- Helper lemmas

lemma floor_half_q : ⌊(1/2 : ℚ)⌋ = 0 := by
  rw [Int.floor_eq_iff]
  norm_num

lemma floor_int_add_half (z : ℤ) : ⌊(z : ℚ) + 1/2⌋ = z := by
  rw [add_comm, Int.floor_add_int, floor_half_q, zero_add]

lemma floor_nat_add_half (m : ℕ) : ⌊(m : ℚ) + 1/2⌋ = (m : ℤ) := by
  rw [show ((m : ℚ) : ℚ) = ((m : ℤ) : ℚ) by push_cast; ring]
  exact floor_int_add_half m

lemma floor_sub_nat_add_half (x n : ℕ) :
    ⌊(x : ℚ) + 1/2 - (n : ℚ)⌋ = (x : ℤ) - (n : ℤ) := by
  have h1 := floor_int_add_half ((x : ℤ) - (n : ℤ))
  push_cast at h1
  rw [show (x : ℚ) + 1/2 - (n : ℚ) = (x : ℚ) - (n : ℚ) + 1/2 by ring]
  exact h1

lemma applyShear_dims (src : Buffer) (direction : String) (sh : ℚ) :
    (applyShearTransform src direction sh).width = src.width ∧
      (applyShearTransform src direction sh).height = src.height := by
  unfold applyShearTransform
  split
  all_goals exact ⟨rfl, rfl⟩

lemma gd_fallback_core (src : Buffer) (direction : String) (sh : ℚ)
    (h : ¬ isLPCFormat src.height) :
    generateDiagonal src direction sh = applyShearTransform (drawCopy src) direction sh ∧
      (generateDiagonal src direction sh).width = src.width ∧
      (generateDiagonal src direction sh).height = src.height ∧
      generateDiagonalWarns src := by
  have he : generateDiagonal src direction sh = applyShearTransform (drawCopy src) direction sh := by
    simp only [generateDiagonal, if_neg h]
  refine ⟨he, ?_, ?_, h⟩
  · rw [he]
    exact (applyShear_dims (drawCopy src) direction sh).1.trans rfl
  · rw [he]
    exact (applyShear_dims (drawCopy src) direction sh).2.trans rfl

lemma extractRow_drawCopy_bufEq (src : Buffer) (r : Nat) :
    bufEq (extractRow (drawCopy src) r) (extractRow src r) := by
  refine ⟨rfl, rfl, ?_⟩
  intro x hx y hy
  simp only [extractRow, drawCopy]
  by_cases hc : x < src.width ∧ y < src.height / 4 ∧ r * (src.height / 4) + y < src.height
  · rw [if_pos hc, if_pos hc, if_pos ⟨hc.1, hc.2.2⟩]
  · rw [if_neg hc, if_neg hc]

/-- Claim C8: for every input buffer and every direction and shear amount,
`applyShearTransform` returns an output buffer with the same width and the
same height as its input (no width squash in this implementation). -/
theorem applyShear_preserves_dims (src : Buffer) (direction : String) (sh : ℚ) :
    (applyShearTransform src direction sh).width = src.width ∧
      (applyShearTransform src direction sh).height = src.height :=
  applyShear_dims src direction sh

/-- Claim C5: applying the shear transform with amount 0 is the identity
transform, pixel-for-pixel, for any direction token. -/
theorem applyShear_zero_identity (src : Buffer) (direction : String) :
    bufEq (applyShearTransform src direction 0) src := by
  have hpos : ∀ x y : ℕ, x < src.width → y < src.height →
      shearPixPos src 0 x y = src.pix x y := by
    intro x y hx hy
    simp only [shearPixPos]
    rw [zero_mul, sub_zero, floor_nat_add_half]
    rw [if_pos ⟨hx, Int.natCast_nonneg y, by exact_mod_cast hy⟩]
    simp
  have hneg : ∀ x y : ℕ, x < src.width → y < src.height →
      shearPixNeg src 0 x y = src.pix x y := by
    intro x y hx hy
    simp only [shearPixNeg]
    rw [mul_zero, sub_zero, zero_mul, add_zero, floor_nat_add_half, floor_nat_add_half]
    rw [if_pos ⟨Int.natCast_nonneg x, by exact_mod_cast hx,
      Int.natCast_nonneg y, by exact_mod_cast hy⟩]
    simp
  by_cases hd : direction = "ne" ∨ direction = "se"
  · have he : applyShearTransform src direction 0 =
        ⟨src.width, src.height, shearPixPos src 0⟩ := by
      simp only [applyShearTransform, if_pos hd]
    rw [he]
    exact ⟨rfl, rfl, fun x hx y hy => hpos x y hx hy⟩
  · have he : applyShearTransform src direction 0 =
        ⟨src.width, src.height, shearPixNeg src 0⟩ := by
      simp only [applyShearTransform, if_neg hd]
    rw [he]
    exact ⟨rfl, rfl, fun x hx y hy => hneg x y hx hy⟩

/-- Claim C4: for every sheet whose height is divisible by 4 and every row
index in 0..3, `extractRow` returns a buffer of dimensions
`(width, height/4)` that is pixel-for-pixel the source sub-rectangle
starting at row `rowIndex * (height/4)`. -/
theorem extractRow_crop (src : Buffer) (rowIndex : Nat)
    (hr : rowIndex < 4) (h4 : src.height % 4 = 0) :
    (extractRow src rowIndex).width = src.width ∧
      (extractRow src rowIndex).height = src.height / 4 ∧
      ∀ x < src.width, ∀ y < src.height / 4,
        (extractRow src rowIndex).pix x y =
          src.pix x (rowIndex * (src.height / 4) + y) := by
  refine ⟨rfl, rfl, ?_⟩
  intro x hx y hy
  simp only [extractRow]
  have hb : rowIndex * (src.height / 4) + y < src.height := by
    interval_cases rowIndex
    all_goals omega
  rw [if_pos ⟨hx, hy, hb⟩]

/-- Witness for claim C4 at the concrete sheet `smallSheet` and row 2. -/
theorem extractRow_crop_witness :
    (2 < 4 ∧ smallSheet.height % 4 = 0) ∧
      ((extractRow smallSheet 2).width = smallSheet.width ∧
        (extractRow smallSheet 2).height = smallSheet.height / 4 ∧
        ∀ x < smallSheet.width, ∀ y < smallSheet.height / 4,
          (extractRow smallSheet 2).pix x y =
            smallSheet.pix x (2 * (smallSheet.height / 4) + y)) :=
  ⟨⟨by decide, by decide⟩, extractRow_crop smallSheet 2 (by decide) (by decide)⟩

/-- Claim C2: for every sheet satisfying the LPC check (height divisible
by 4 and at least 256), `generateDiagonal` shears the North row (index 2)
for `ne` and `nw` and the South row (index 0) for `se` and `sw`. -/
theorem generateDiagonal_row_selection (src : Buffer) (sh : ℚ)
    (h4 : src.height % 4 = 0) (h256 : 256 ≤ src.height) :
    generateDiagonal src "ne" sh =
        applyShearTransform (extractRow (drawCopy src) 2) "ne" sh ∧
      generateDiagonal src "nw" sh =
        applyShearTransform (extractRow (drawCopy src) 2) "nw" sh ∧
      generateDiagonal src "se" sh =
        applyShearTransform (extractRow (drawCopy src) 0) "se" sh ∧
      generateDiagonal src "sw" sh =
        applyShearTransform (extractRow (drawCopy src) 0) "sw" sh := by
  have hl : isLPCFormat src.height := ⟨h4, h256⟩
  refine ⟨?_, ?_, ?_, ?_⟩
  all_goals
    simp only [generateDiagonal, if_pos hl, String.reduceEq, or_self, or_false,
      false_or, or_true, true_or, if_true, if_false]

/-- Witness for claim C2 at the concrete LPC sheet `sheet256`. -/
theorem generateDiagonal_row_selection_witness :
    (sheet256.height % 4 = 0 ∧ 256 ≤ sheet256.height) ∧
      (generateDiagonal sheet256 "ne" DIAGONAL_SHEAR_AMOUNT =
          applyShearTransform (extractRow (drawCopy sheet256) 2) "ne" DIAGONAL_SHEAR_AMOUNT ∧
        generateDiagonal sheet256 "nw" DIAGONAL_SHEAR_AMOUNT =
          applyShearTransform (extractRow (drawCopy sheet256) 2) "nw" DIAGONAL_SHEAR_AMOUNT ∧
        generateDiagonal sheet256 "se" DIAGONAL_SHEAR_AMOUNT =
          applyShearTransform (extractRow (drawCopy sheet256) 0) "se" DIAGONAL_SHEAR_AMOUNT ∧
        generateDiagonal sheet256 "sw" DIAGONAL_SHEAR_AMOUNT =
          applyShearTransform (extractRow (drawCopy sheet256) 0) "sw" DIAGONAL_SHEAR_AMOUNT) :=
  ⟨⟨by decide, by decide⟩,
    generateDiagonal_row_selection sheet256 DIAGONAL_SHEAR_AMOUNT (by decide) (by decide)⟩

/-- Claim C3: for every input whose height is not divisible by 4 or below
256, `generateDiagonal` does not fail: it shears the whole copied buffer,
returns a buffer of the input's dimensions, and emits the diagnostic
warning. -/
theorem generateDiagonal_fallback (src : Buffer) (direction : String) (sh : ℚ)
    (h : ¬ isLPCFormat src.height) :
    generateDiagonal src direction sh = applyShearTransform (drawCopy src) direction sh ∧
      (generateDiagonal src direction sh).width = src.width ∧
      (generateDiagonal src direction sh).height = src.height ∧
      generateDiagonalWarns src :=
  gd_fallback_core src direction sh h

/-- Witness for claim C3 at the concrete 3×5 buffer `oddSheet`. -/
theorem generateDiagonal_fallback_witness :
    ¬ isLPCFormat oddSheet.height ∧
      (generateDiagonal oddSheet "ne" DIAGONAL_SHEAR_AMOUNT =
          applyShearTransform (drawCopy oddSheet) "ne" DIAGONAL_SHEAR_AMOUNT ∧
        (generateDiagonal oddSheet "ne" DIAGONAL_SHEAR_AMOUNT).width = oddSheet.width ∧
        (generateDiagonal oddSheet "ne" DIAGONAL_SHEAR_AMOUNT).height = oddSheet.height ∧
        generateDiagonalWarns oddSheet) :=
  ⟨by decide, generateDiagonal_fallback oddSheet "ne" DIAGONAL_SHEAR_AMOUNT (by decide)⟩

/-- Claim C10: on an LPC-conforming sheet, every direction token other
than `ne`, `nw`, `se`, `sw` is processed silently as a south-facing
diagonal: the South row (index 0) is selected and the leftward-shear
branch taken, so the result coincides with the `sw` result and no error
is raised. -/
theorem generateDiagonal_unknown_direction_south (src : Buffer) (d : String) (sh : ℚ)
    (h4 : src.height % 4 = 0) (h256 : 256 ≤ src.height)
    (hne : d ≠ "ne") (hnw : d ≠ "nw") (hse : d ≠ "se") (_hsw : d ≠ "sw") :
    generateDiagonal src d sh = applyShearTransform (extractRow (drawCopy src) 0) d sh ∧
      generateDiagonal src d sh = generateDiagonal src "sw" sh := by
  have hl : isLPCFormat src.height := ⟨h4, h256⟩
  have hrow : ¬(d = "ne" ∨ d = "nw") := by
    rintro (h | h)
    exacts [hne h, hnw h]
  have hbranch : ¬(d = "ne" ∨ d = "se") := by
    rintro (h | h)
    exacts [hne h, hse h]
  have he : generateDiagonal src d sh =
      applyShearTransform (extractRow (drawCopy src) 0) d sh := by
    simp only [generateDiagonal, if_pos hl, if_neg hrow]
  refine ⟨he, ?_⟩
  rw [he]
  have h2 : generateDiagonal src "sw" sh =
      applyShearTransform (extractRow (drawCopy src) 0) "sw" sh := by
    simp only [generateDiagonal, if_pos hl, String.reduceEq, or_self, if_false]
  rw [h2]
  unfold applyShearTransform
  rw [if_neg hbranch, if_neg (by decide : ¬(("sw" : String) = "ne" ∨ ("sw" : String) = "se"))]

/-- Witness for claim C10 at the concrete token `up` on `sheet256`. -/
theorem generateDiagonal_unknown_direction_south_witness :
    (sheet256.height % 4 = 0 ∧ 256 ≤ sheet256.height ∧ ("up" : String) ≠ "ne" ∧
        ("up" : String) ≠ "nw" ∧ ("up" : String) ≠ "se" ∧ ("up" : String) ≠ "sw") ∧
      (generateDiagonal sheet256 "up" DIAGONAL_SHEAR_AMOUNT =
          applyShearTransform (extractRow (drawCopy sheet256) 0) "up" DIAGONAL_SHEAR_AMOUNT ∧
        generateDiagonal sheet256 "up" DIAGONAL_SHEAR_AMOUNT =
          generateDiagonal sheet256 "sw" DIAGONAL_SHEAR_AMOUNT) :=
  ⟨⟨by decide, by decide, by decide, by decide, by decide, by decide⟩,
    generateDiagonal_unknown_direction_south sheet256 "up" DIAGONAL_SHEAR_AMOUNT
      (by decide) (by decide) (by decide) (by decide) (by decide) (by decide)⟩

/-- Claim C7: `generateAllDiagonals` returns exactly the four keys
`ne`, `nw`, `se`, `sw` (the `Diagonals` record) with the four diagonal
syntheses; `generateAll8Directions` returns exactly the eight keys of the
`AllDirections` record, and for LPC-conforming sheets its cardinal entries
`n`, `e`, `s`, `w` are pixel-identical to direct `extractRow` calls on
rows 2, 3, 0, 1 of the sheet. -/
theorem generateAll_keys_and_cardinals (src : Buffer) (sh : ℚ)
    (_h4 : src.height % 4 = 0) (_h256 : 256 ≤ src.height) :
    generateAllDiagonals src sh =
        ⟨generateDiagonal src "ne" sh, generateDiagonal src "nw" sh,
          generateDiagonal src "se" sh, generateDiagonal src "sw" sh⟩ ∧
      generateAll8Directions src sh =
        ⟨extractRow (drawCopy src) 2, extractRow (drawCopy src) 3,
          extractRow (drawCopy src) 0, extractRow (drawCopy src) 1,
          generateDiagonal src "ne" sh, generateDiagonal src "nw" sh,
          generateDiagonal src "se" sh, generateDiagonal src "sw" sh⟩ ∧
      bufEq (generateAll8Directions src sh).n (extractRow src 2) ∧
      bufEq (generateAll8Directions src sh).e (extractRow src 3) ∧
      bufEq (generateAll8Directions src sh).s (extractRow src 0) ∧
      bufEq (generateAll8Directions src sh).w (extractRow src 1) :=
  ⟨rfl, rfl, extractRow_drawCopy_bufEq src 2, extractRow_drawCopy_bufEq src 3,
    extractRow_drawCopy_bufEq src 0, extractRow_drawCopy_bufEq src 1⟩

/-- Witness for claim C7 at the concrete LPC sheet `sheet256`. -/
theorem generateAll_keys_and_cardinals_witness :
    (sheet256.height % 4 = 0 ∧ 256 ≤ sheet256.height) ∧
      (generateAllDiagonals sheet256 DIAGONAL_SHEAR_AMOUNT =
          ⟨generateDiagonal sheet256 "ne" DIAGONAL_SHEAR_AMOUNT,
            generateDiagonal sheet256 "nw" DIAGONAL_SHEAR_AMOUNT,
            generateDiagonal sheet256 "se" DIAGONAL_SHEAR_AMOUNT,
            generateDiagonal sheet256 "sw" DIAGONAL_SHEAR_AMOUNT⟩ ∧
        generateAll8Directions sheet256 DIAGONAL_SHEAR_AMOUNT =
          ⟨extractRow (drawCopy sheet256) 2, extractRow (drawCopy sheet256) 3,
            extractRow (drawCopy sheet256) 0, extractRow (drawCopy sheet256) 1,
            generateDiagonal sheet256 "ne" DIAGONAL_SHEAR_AMOUNT,
            generateDiagonal sheet256 "nw" DIAGONAL_SHEAR_AMOUNT,
            generateDiagonal sheet256 "se" DIAGONAL_SHEAR_AMOUNT,
            generateDiagonal sheet256 "sw" DIAGONAL_SHEAR_AMOUNT⟩ ∧
        bufEq (generateAll8Directions sheet256 DIAGONAL_SHEAR_AMOUNT).n (extractRow sheet256 2) ∧
        bufEq (generateAll8Directions sheet256 DIAGONAL_SHEAR_AMOUNT).e (extractRow sheet256 3) ∧
        bufEq (generateAll8Directions sheet256 DIAGONAL_SHEAR_AMOUNT).s (extractRow sheet256 0) ∧
        bufEq (generateAll8Directions sheet256 DIAGONAL_SHEAR_AMOUNT).w (extractRow sheet256 1)) :=
  ⟨⟨by decide, by decide⟩,
    generateAll_keys_and_cardinals sheet256 DIAGONAL_SHEAR_AMOUNT (by decide) (by decide)⟩

/-- Claim C1: evaluation of the code at a failing input.  The claimed
horizontal-shear forward mapping sends a source pixel at `(3, 0)` to
destination `(3 + shearAmount*0, 0) = (3, 0)`; the code instead passes
`shearAmount` as the `b` entry of `ctx.transform(a, b, c, d, e, f)`
(`y' = b*x + d*y + f`), a vertical shear, so with amount `1/4` the pixel
leaves `(3, 0)` (transparent there) and appears at `(3, 1)`. -/
theorem shear_moves_pixels_vertically :
    srcC1.pix 3 0 = pxO ∧
      (applyShearTransform srcC1 "ne" (1/4)).pix 3 0 = transparent ∧
      (applyShearTransform srcC1 "ne" (1/4)).pix 3 1 = pxO := by
  refine ⟨by decide, ?_, ?_⟩
  · simp only [applyShearTransform]
    norm_num [shearPixPos, srcC1]
  · simp only [applyShearTransform]
    norm_num [shearPixPos, srcC1]

/-- Claim C6 counterexample: `srcSym` is horizontally symmetric, yet the
`nw` output with amount `1/4` is not the horizontal mirror image of the
`ne` output: at `(1, 2)` the `nw` output is transparent while the
mirrored `ne` output is opaque. -/
theorem shear_mirror_fails :
    (∀ x < srcSym.width, ∀ y < srcSym.height,
        srcSym.pix x y = srcSym.pix (srcSym.width - 1 - x) y) ∧
      ¬ bufEq (applyShearTransform srcSym "nw" (1/4))
          (mirrorBuf (applyShearTransform srcSym "ne" (1/4))) := by
  constructor
  · decide
  · intro h
    have hL : (applyShearTransform srcSym "nw" (1/4)).pix 1 2 = transparent := by
      simp only [applyShearTransform, shearPixNeg, srcSym, String.reduceEq, or_self, if_false]
      norm_num
    have hR : (mirrorBuf (applyShearTransform srcSym "ne" (1/4))).pix 1 2 = pxO := by
      simp only [applyShearTransform, shearPixPos, mirrorBuf, srcSym, String.reduceEq,
        or_false, if_true]
      norm_num
    have hw1 : (1 : ℕ) < (applyShearTransform srcSym "nw" (1/4)).width := by decide
    have hh2 : (2 : ℕ) < (applyShearTransform srcSym "nw" (1/4)).height := by decide
    have hpix := h.2.2 1 hw1 2 hh2
    rw [hL, hR] at hpix
    exact absurd hpix (by decide)

/-- Claim C6 amended: what the two shear branches actually satisfy.  When
`offset = width * shearAmount` is a whole number `n`, the `nw` output
equals the `ne` output computed with the negated amount and translated
right by `n` columns (transparent in the first `n` columns); `sw` is
identical to `nw` and `se` to `ne`.  The outputs are vertical shears, so
no horizontal mirror relation holds (see the counterexample). -/
theorem applyShear_nw_eq_translated_neg_ne (src : Buffer) (sh : ℚ) (n : ℕ)
    (hn : (src.width : ℚ) * sh = (n : ℚ)) :
    (∀ x y : ℕ, (applyShearTransform src "nw" sh).pix x y =
        if n ≤ x then (applyShearTransform src "ne" (-sh)).pix (x - n) y
        else transparent) ∧
      applyShearTransform src "sw" sh = applyShearTransform src "nw" sh ∧
      applyShearTransform src "se" sh = applyShearTransform src "ne" sh := by
  refine ⟨?_, ?_, ?_⟩
  · intro x y
    simp only [applyShearTransform, String.reduceEq, or_self, or_false, true_or,
      if_true, if_false]
    simp only [shearPixNeg, shearPixPos, hn]
    rw [floor_sub_nat_add_half x n]
    by_cases hxn : n ≤ x
    · rw [if_pos hxn]
      have hq : (x : ℚ) + 1/2 - (n : ℚ) = (((x - n : ℕ)) : ℚ) + 1/2 := by
        have hc : ((x - n : ℕ) : ℚ) = (x : ℚ) - (n : ℚ) := by
          push_cast [hxn]
          ring
        rw [hc]
        ring
      rw [hq]
      have hy2 : (y : ℚ) + 1/2 - (-sh) * ((((x - n) : ℕ) : ℚ) + 1/2) =
          (y : ℚ) + 1/2 + sh * ((((x - n) : ℕ) : ℚ) + 1/2) := by ring
      rw [hy2]
      generalize ⌊(y : ℚ) + 1/2 + sh * ((((x - n) : ℕ) : ℚ) + 1/2)⌋ = Y
      have htn : ((x : ℤ) - (n : ℤ)).toNat = x - n := by omega
      rw [htn]
      have hcond : (0 ≤ (x : ℤ) - (n : ℤ) ∧ (x : ℤ) - (n : ℤ) < (src.width : ℤ) ∧
          0 ≤ Y ∧ Y < (src.height : ℤ)) ↔
            ((x - n : ℕ) < src.width ∧ 0 ≤ Y ∧ Y < (src.height : ℤ)) := by
        constructor
        · rintro ⟨h1, h2, h3⟩
          exact ⟨by omega, h3⟩
        · rintro ⟨k1, k2⟩
          exact ⟨by omega, by omega, k2⟩
      exact if_congr hcond rfl rfl
    · rw [if_neg hxn]
      apply if_neg
      rintro ⟨h1, -⟩
      omega
  · unfold applyShearTransform
    rw [if_neg (by decide : ¬(("sw" : String) = "ne" ∨ ("sw" : String) = "se")),
      if_neg (by decide : ¬(("nw" : String) = "ne" ∨ ("nw" : String) = "se"))]
  · unfold applyShearTransform
    rw [if_pos (Or.inr rfl : (("se" : String) = "ne" ∨ ("se" : String) = "se")),
      if_pos (Or.inl rfl : (("ne" : String) = "ne" ∨ ("ne" : String) = "se"))]

/-- Witness for the amended claim C6 at `srcSym`, amount `1/4`,
offset `4 * (1/4) = 1`. -/
theorem applyShear_nw_eq_translated_neg_ne_witness :
    ((srcSym.width : ℚ) * (1/4) = ((1 : ℕ) : ℚ)) ∧
      ((∀ x y : ℕ, (applyShearTransform srcSym "nw" (1/4)).pix x y =
          if 1 ≤ x then (applyShearTransform srcSym "ne" (-(1/4))).pix (x - 1) y
          else transparent) ∧
        applyShearTransform srcSym "sw" (1/4) = applyShearTransform srcSym "nw" (1/4) ∧
        applyShearTransform srcSym "se" (1/4) = applyShearTransform srcSym "ne" (1/4)) :=
  ⟨by norm_num [srcSym], applyShear_nw_eq_translated_neg_ne srcSym (1/4) 1 (by norm_num [srcSym])⟩

/-- Claim C9 counterexample: the source raises no error for an
unrecognized direction token: on the LPC sheet `sheet256` the token
`zz` yields a normal buffer, equal to the `sw` result, never
`UnknownDirection`. -/
theorem generateDiagonal_no_error_cex :
    generateDiagonalResult sheet256 "zz" DIAGONAL_SHEAR_AMOUNT ≠
        Except.error DiagError.unknownDirection ∧
      generateDiagonalResult sheet256 "zz" DIAGONAL_SHEAR_AMOUNT =
        Except.ok (generateDiagonal sheet256 "sw" DIAGONAL_SHEAR_AMOUNT) := by
  refine ⟨fun h => Except.noConfusion h, ?_⟩
  unfold generateDiagonalResult
  congr 1

/-- Claim C9 amended: `generateDiagonal` performs no input validation and
never raises a typed error.  A zero-height buffer fails the LPC check,
flows through the whole-buffer fallback with the diagnostic warning, and
returns a buffer of the input's dimensions; unknown direction tokens are
processed as the south-facing diagonal path instead of raising
`UnknownDirection`. -/
theorem generateDiagonal_never_errors (src : Buffer) (direction : String) (sh : ℚ)
    (h0 : src.height = 0) :
    generateDiagonalResult src direction sh =
        Except.ok (applyShearTransform (drawCopy src) direction sh) ∧
      (generateDiagonal src direction sh).width = src.width ∧
      (generateDiagonal src direction sh).height = src.height ∧
      generateDiagonalWarns src := by
  have h : ¬ isLPCFormat src.height := by
    rw [h0]
    rintro ⟨-, h256⟩
    omega
  obtain ⟨he, hw, hh, hwarn⟩ := gd_fallback_core src direction sh h
  refine ⟨?_, hw, hh, hwarn⟩
  unfold generateDiagonalResult
  rw [he]

/-- Witness for the amended claim C9 at the zero-dimension buffer. -/
theorem generateDiagonal_never_errors_witness :
    emptyBuf.height = 0 ∧
      (generateDiagonalResult emptyBuf "ne" DIAGONAL_SHEAR_AMOUNT =
          Except.ok (applyShearTransform (drawCopy emptyBuf) "ne" DIAGONAL_SHEAR_AMOUNT) ∧
        (generateDiagonal emptyBuf "ne" DIAGONAL_SHEAR_AMOUNT).width = emptyBuf.width ∧
        (generateDiagonal emptyBuf "ne" DIAGONAL_SHEAR_AMOUNT).height = emptyBuf.height ∧
        generateDiagonalWarns emptyBuf) :=
  ⟨rfl, generateDiagonal_never_errors emptyBuf "ne" DIAGONAL_SHEAR_AMOUNT rfl⟩
